import Mathlib

/-!
Verification development for the repository tag scanner
(src/app.py and src/data_transformer.py).

Python dictionaries are modelled as insertion-ordered association lists
with string keys; Python string comparison (used by the max over ISO-8601
date strings) coincides with the code-point lexicographic order of Lean
strings; Python len(set(xs)) is modelled as xs.dedup.length and
list(set(xs)) as xs.dedup (the Python set iteration order is unspecified,
so a canonical order is chosen); wall-clock values (timestamps, durations)
are threaded in as explicit parameters or opaque fields.
-/

/-- Python str.startswith and the anchored literal-prefix regex test,
modelled character-wise (Python slices and compares by code point). -/
def strIsPrefixOf (p s : String) : Bool :=
  p.toList.isPrefixOf s.toList

/-- Python max over a list of strings, returning the empty string for an
empty list (the code always guards max with an emptiness test that
produces the empty string). Python max keeps the current element unless a
later one is strictly greater. -/
def pyMaxString : List String → String
  | [] => ""
  | d :: ds => ds.foldl (fun a b => if a < b then b else a) d

/-- Python max over dict keys with the count as key function
(max(tag_counts, key=tag_counts.get)): the first key attaining the
largest count wins, since Python max replaces the running maximum only on
a strictly greater value. Returns the empty string for an empty dict,
matching the guarded use in the code. -/
def pyMaxByCount : List (String × Nat) → String
  | [] => ""
  | c :: cs => (cs.foldl (fun a b => if b.2 > a.2 then b else a) c).1

/-- Lookup in a Python dict modelled as an association list: the first
entry with the given key. -/
def dictGet {α : Type} (d : List (String × α)) (k : String) : Option α :=
  match d with
  | [] => none
  | (k', v) :: rest => if k' = k then some v else dictGet rest k

/-- Assignment d[k] = v on a Python dict: an existing key keeps its
position (and its original key object), a new key is appended. -/
def dictSet {α : Type} (d : List (String × α)) (k : String) (v : α) : List (String × α) :=
  match d with
  | [] => [(k, v)]
  | (k', v') :: rest => if k' = k then (k', v) :: rest else (k', v') :: dictSet rest k v

/-- Python dict.update(new): assign every entry of new, in order, into d. -/
def dictUpdate {α : Type} (d new : List (String × α)) : List (String × α) :=
  new.foldl (fun acc p => dictSet acc p.1 p.2) d

/-! ## Data model of data_transformer.py -/

/-- One element of the tags_found list in the transformer input (the JSON
shape of the API ScanResult), on the domain where the string-valued
fields are present as strings (the code reads them with .get defaulting
to the empty string). -/
structure ApiTagEntry where
  tag_name : String
  commit_id : String
  author : String
  date : String
  message : String
  repository_name : String
  repository_url : String
  tag_url : String
  repository_path : Option String
deriving DecidableEq

/-- The transformer input: the fields of the API response that
transform_api_response reads (with .get defaults). -/
structure ApiResponse where
  scan_duration_seconds : Nat
  total_repositories_scanned : Nat
  tags_found : List ApiTagEntry
deriving DecidableEq

/-- A transformed repository record inside a TagGroup
(transform_api_response, lines 56-69). -/
structure RepoRecord where
  repository_name : String
  commit_id : String
  commit_short : String
  author : String
  author_email : Option String
  date : String
  message : String
  repository_url : String
  tag_url : String
  deployment_status : String
  environment : String
  repository_path : Option String
deriving DecidableEq

/-- The per-tag summary (transform_api_response, lines 85-89). -/
structure TagSummary where
  total_repositories : Nat
  latest_commit_date : String
  deployment_environments : List String
deriving DecidableEq

/-- One value of the tags mapping. -/
structure TagGroup where
  tag_name : String
  repositories : List RepoRecord
  summary : TagSummary
deriving DecidableEq

/-- The metadata block of an aggregated dataset
(transform_api_response, lines 31-38). -/
structure Metadata where
  last_updated : String
  scan_duration_seconds : Nat
  organization : String
  total_repositories_scanned : Nat
  scan_type : String
  version : String
deriving DecidableEq

/-- The statistics block of an aggregated dataset. -/
structure Statistics where
  total_unique_tags : Nat
  total_repositories_with_tags : Nat
  most_common_tag : String
  latest_tag_date : String
deriving DecidableEq

/-- The persisted dataset shape: metadata, the tag-keyed mapping and the
derived statistics. -/
structure AggregatedDataset where
  metadata : Metadata
  tags : List (String × TagGroup)
  statistics : Statistics
deriving DecidableEq

/-- The email extraction of _extract_email_from_author (lines 120-126):
the substring strictly between the first < and the first >, when both
occur and in that order. -/
def extract_email_from_author (author : String) : Option String :=
  let cs := author.toList
  if cs.contains '<' && cs.contains '>' then
    let start := cs.indexOf '<' + 1
    let stop := cs.indexOf '>'
    if start < stop then some (String.mk ((cs.drop start).take (stop - start))) else none
  else none

/-- The record built for one input match (transform_api_response,
lines 54-70): commit_short is the first seven characters of a nonempty
commit id, deployment fields default to unknown. -/
def mkRepoRecord (ti : ApiTagEntry) : RepoRecord :=
  { repository_name := ti.repository_name
    commit_id := ti.commit_id
    commit_short := if ti.commit_id = "" then "" else String.mk (ti.commit_id.toList.take 7)
    author := ti.author
    author_email := extract_email_from_author ti.author
    date := ti.date
    message := ti.message
    repository_url := ti.repository_url
    tag_url := ti.tag_url
    deployment_status := "unknown"
    environment := "unknown"
    repository_path := ti.repository_path }

/-- One defaultdict append tag_groups[tag_name].append(tag_info): the
entry is appended to the group of its key, a fresh key is appended at the
end of the dict. -/
def addToGroup (acc : List (String × List ApiTagEntry)) (k : String) (e : ApiTagEntry) :
    List (String × List ApiTagEntry) :=
  match acc with
  | [] => [(k, [e])]
  | (k', g) :: rest => if k' = k then (k', g ++ [e]) :: rest else (k', g) :: addToGroup rest k e

/-- Grouping of tags_found by tag_name (transform_api_response,
lines 45-48), preserving first-seen key order and input order inside each
group. -/
def groupByTag (l : List ApiTagEntry) : List (String × List ApiTagEntry) :=
  l.foldl (fun acc e => addToGroup acc e.tag_name e) []

/-- The TagGroup built for one tag (transform_api_response, lines 51-90):
records in input order, latest_commit_date the Python max of the nonempty
dates, deployment_environments the distinct environments other than
unknown (always empty at creation time). -/
def mkTagGroup (tag_name : String) (group : List ApiTagEntry) : TagGroup :=
  let transformed_repos := group.map mkRepoRecord
  let dates := (transformed_repos.map (fun r => r.date)).filter (fun d => d != "")
  let latest_date := pyMaxString dates
  let environments := ((transformed_repos.map (fun r => r.environment)).filter
      (fun e => e != "unknown")).dedup
  { tag_name := tag_name
    repositories := transformed_repos
    summary :=
      { total_repositories := transformed_repos.length
        latest_commit_date := latest_date
        deployment_environments := environments } }

/-- The pure statistics function of the tags mapping stated by the spec
(sections 4.3 and 4.4): total_unique_tags the number of tags,
total_repositories_with_tags the number of distinct repository names
across all groups, most_common_tag the tag with the largest
total_repositories with ties broken by first-seen order, latest_tag_date
the lexicographic max of the nonempty per-group latest_commit_date
values. -/
def statisticsOfTags (tags : List (String × TagGroup)) : Statistics :=
  let all_repos := (tags.map (fun p => p.2.repositories)).flatten
  let unique_repos := (all_repos.map (fun r => r.repository_name)).dedup
  let tag_counts := tags.map (fun p => (p.1, p.2.summary.total_repositories))
  let most_common_tag := pyMaxByCount tag_counts
  let all_dates := (tags.map (fun p => p.2.summary.latest_commit_date)).filter (fun d => d != "")
  let latest_tag_date := pyMaxString all_dates
  { total_unique_tags := tags.length
    total_repositories_with_tags := unique_repos.length
    most_common_tag := most_common_tag
    latest_tag_date := latest_tag_date }

/-- transform_api_response (lines 25-118). The wall-clock timestamp is
passed in as now; organization is optional and falsy values fall back to
unknown, as in the source. -/
def transform_api_response (schema_version now : String) (api_response : ApiResponse)
    (organization : Option String) (scan_type : String) : AggregatedDataset :=
  let metadata : Metadata :=
    { last_updated := now ++ "Z"
      scan_duration_seconds := api_response.scan_duration_seconds
      organization :=
        match organization with
        | none => "unknown"
        | some s => if s = "" then "unknown" else s
      total_repositories_scanned := api_response.total_repositories_scanned
      scan_type := scan_type
      version := schema_version }
  let tag_groups := groupByTag api_response.tags_found
  let tags_dict := tag_groups.map (fun p => (p.1, mkTagGroup p.1 p.2))
  let all_repos := (tags_dict.map (fun p => p.2.repositories)).flatten
  let unique_repos := (all_repos.map (fun r => r.repository_name)).dedup
  let tag_counts := tags_dict.map (fun p => (p.1, p.2.summary.total_repositories))
  let most_common_tag := pyMaxByCount tag_counts
  let all_dates := (tags_dict.map (fun p => p.2.summary.latest_commit_date)).filter
      (fun d => d != "")
  let latest_tag_date := pyMaxString all_dates
  { metadata := metadata
    tags := tags_dict
    statistics :=
      { total_unique_tags := tags_dict.length
        total_repositories_with_tags := unique_repos.length
        most_common_tag := most_common_tag
        latest_tag_date := latest_tag_date } }

/-- One entry of deployed_versions in the deployment configuration; the
code reads status and environment with .get defaulting to unknown, so
the fields are optional. -/
structure VersionDeployInfo where
  status : Option String
  environment : Option String
deriving DecidableEq

/-- The per-repository deployment configuration; deployed_versions is
read with .get defaulting to the empty dict. -/
structure RepoDeployConfig where
  deployed_versions : List (String × VersionDeployInfo)
deriving DecidableEq

/-- The per-record update of enhance_with_deployment_info
(lines 132-147): a configured repository takes status and environment
from its deployed_versions entry for the tag, or not_deployed and none
when the tag is absent; an unconfigured repository is left untouched. -/
def enhanceRecord (cfg : List (String × RepoDeployConfig)) (tag_name : String)
    (r : RepoRecord) : RepoRecord :=
  match dictGet cfg r.repository_name with
  | none => r
  | some repo_config =>
    match dictGet repo_config.deployed_versions tag_name with
    | some version_info =>
      { r with
        deployment_status := version_info.status.getD "unknown"
        environment := version_info.environment.getD "unknown" }
    | none =>
      { r with deployment_status := "not_deployed", environment := "none" }

/-- enhance_with_deployment_info (lines 128-157): the first loop updates
every record from the configuration, the second recomputes each summary
deployment_environments as the distinct environments other than unknown
and none. Metadata, statistics and everything else are untouched. -/
def enhance_with_deployment_info (data : AggregatedDataset)
    (deployment_config : List (String × RepoDeployConfig)) : AggregatedDataset :=
  let tags1 := data.tags.map (fun p =>
    (p.1, { p.2 with repositories := p.2.repositories.map (enhanceRecord deployment_config p.1) }))
  let tags2 := tags1.map (fun p =>
    (p.1, { p.2 with summary :=
      { p.2.summary with deployment_environments :=
          ((p.2.repositories.map (fun r => r.environment)).filter
            (fun e => !(e == "unknown" || e == "none"))).dedup } }))
  { data with tags := tags2 }

/-- merge_scan_results (lines 176-209). The source shallow-copies the
top-level dict of existing_data and then calls update on the shared tags
dict, which mutates the tags mapping of existing_data in place; the
statistics are recomputed from the merged tags and stored only in the
new top-level dict. The pair returned here is (the merged dataset, the
state of existing_data after the call). -/
def merge_scan_results (existing_data new_data : AggregatedDataset) :
    AggregatedDataset × AggregatedDataset :=
  let mergedTags := dictUpdate existing_data.tags new_data.tags
  let all_repos := (mergedTags.map (fun p => p.2.repositories)).flatten
  let unique_repos := (all_repos.map (fun r => r.repository_name)).dedup
  let tag_counts := mergedTags.map (fun p => (p.1, p.2.summary.total_repositories))
  let most_common_tag := pyMaxByCount tag_counts
  let all_dates := (mergedTags.map (fun p => p.2.summary.latest_commit_date)).filter
      (fun d => d != "")
  let latest_tag_date := pyMaxString all_dates
  let merged : AggregatedDataset :=
    { metadata := new_data.metadata
      tags := mergedTags
      statistics :=
        { total_unique_tags := mergedTags.length
          total_repositories_with_tags := unique_repos.length
          most_common_tag := most_common_tag
          latest_tag_date := latest_tag_date } }
  (merged, { existing_data with tags := mergedTags })

/-! ## Scan engine of app.py -/

/-- Outcome of the GitHub tag-listing call for one repository, as seen by
get_repository_tags: a list of tag names (possibly with empty entries the
code filters out), a 404 failure, or any other failure of the underlying
CLI call. -/
inductive TagFetch where
  | ok (tags : List String)
  | err404
  | errOther
deriving DecidableEq

/-- One element of the repository list returned by get_repositories; the
code reads name and url with .get defaulting to the empty string. -/
structure RepoEntry where
  name : String
  url : String
deriving DecidableEq

/-- The dict returned by get_tag_commit_info on success (lines 144-149);
the function itself returns none on any lookup failure. -/
structure CommitInfo where
  commit_sha : String
  author : Option String
  date : Option String
  message : Option String
deriving DecidableEq

/-- A TagInfo as built by the scan endpoints (the pydantic model of
app.py, wall-clock-free fields). -/
structure TagInfo where
  tag_name : String
  commit_id : String
  author : Option String
  date : Option String
  message : Option String
  repository_name : String
  repository_url : String
  tag_url : String
deriving DecidableEq

/-- A ScanResult as returned by the scan endpoints, without the two
wall-clock fields. -/
structure ScanResult where
  total_repositories_scanned : Nat
  repositories_with_tag : Nat
  tags_found : List TagInfo
deriving DecidableEq

/-- get_repository_tags (lines 118-129): a 404 failure is swallowed as an
empty tag list, any other failure of the underlying call is re-raised;
on success the falsy (empty) names are dropped. The error value models
the HTTPException that escapes to the caller. -/
def get_repository_tags (api : String → TagFetch) (repo_name : String) :
    Except Unit (List String) :=
  match api repo_name with
  | .ok tags_data => .ok (tags_data.filter (fun t => t != ""))
  | .err404 => .ok []
  | .errOther => .error ()

/-- The TagInfo built for a matched tag (lines 251-260 and 356-365):
commit fields fall back to empty or absent when the commit-info lookup
returned nothing. -/
def mkTagInfo (repo : RepoEntry) (tag : String) (commit_info : Option CommitInfo) : TagInfo :=
  { tag_name := tag
    commit_id := match commit_info with | some c => c.commit_sha | none => ""
    author := commit_info.bind (fun c => c.author)
    date := commit_info.bind (fun c => c.date)
    message := commit_info.bind (fun c => c.message)
    repository_name := repo.name
    repository_url := repo.url
    tag_url := repo.url ++ "/releases/tag/" ++ tag }

/-- The candidate list of scan_organization_for_tag (lines 232-234):
the exact version, then its v-prefixed form when include_patterns is set
and the version does not already start with v. -/
def tagPatterns (tag_version : String) (include_patterns : Bool) : List String :=
  [tag_version] ++
    (if include_patterns && !(strIsPrefixOf "v" tag_version) then ["v" ++ tag_version] else [])

/-- The candidate loop of scan_organization_for_tag (lines 247-262): the
first candidate present in the tag list wins and the loop breaks. -/
def repoExactMatch (pats : List String) (tags : List String) : Option String :=
  pats.find? (fun p => tags.contains p)

/-- The repository loop of scan_organization_for_tag (lines 236-262):
repositories with a falsy name are skipped, a tag-listing failure aborts
the whole scan (the outer except turns it into a 500), and a matching
repository contributes exactly one TagInfo. -/
def scanTagRepos (api : String → TagFetch) (cinfo : String → String → Option CommitInfo)
    (pats : List String) : List RepoEntry → Except Unit (List TagInfo)
  | [] => .ok []
  | repo :: rest =>
    if repo.name = "" then scanTagRepos api cinfo pats rest
    else
      match get_repository_tags api repo.name with
      | .error e => .error e
      | .ok tags =>
        match scanTagRepos api cinfo pats rest with
        | .error e => .error e
        | .ok rest_found =>
          match repoExactMatch pats tags with
          | some p => .ok (mkTagInfo repo p (cinfo repo.name p) :: rest_found)
          | none => .ok rest_found

/-- scan_organization_for_tag (lines 213-275): repositories_with_tag is
the number of collected matches. -/
def scan_organization_for_tag (repositories : List RepoEntry) (api : String → TagFetch)
    (cinfo : String → String → Option CommitInfo) (tag_version : String)
    (include_patterns : Bool) : Except Unit ScanResult :=
  match scanTagRepos api cinfo (tagPatterns tag_version include_patterns) repositories with
  | .error e => .error e
  | .ok found_tags =>
    .ok { total_repositories_scanned := repositories.length
          repositories_with_tag := found_tags.length
          tags_found := found_tags }

/-- Semantics of re.match with the anchored literal regex esc followed by
an escaped dot (patterns one and two of lines 332-337): the string starts
with the literal followed by a dot. -/
def reMatchLitDot (lit tag : String) : Bool :=
  strIsPrefixOf (lit ++ ".") tag

/-- Semantics of re.match with the anchored literal regex between the two
anchors (patterns three and four of lines 332-337): the dollar anchor of
the Python re module matches at the end of the string or just before a
single newline at the end, so the tag is the literal optionally followed
by one trailing newline. -/
def reMatchLitEnd (lit tag : String) : Bool :=
  tag == lit || tag == lit ++ "\n"

/-- The compiled predicate of scan_organization_for_patterns
(lines 330-337 and 353): the version pattern is escaped with re.escape,
so it is matched as a literal; the four regexes are tried in order. -/
def tag_matches_version_pattern (version_pattern tag : String) : Bool :=
  reMatchLitDot version_pattern tag ||
  reMatchLitDot ("v" ++ version_pattern) tag ||
  reMatchLitEnd version_pattern tag ||
  reMatchLitEnd ("v" ++ version_pattern) tag

/-- The inner tag loop of scan_organization_for_patterns (lines 348-366):
at most the first ten tags of a repository are inspected (the caller
passes the truncated list), the loop breaks once the global cap is
reached, and every accepted tag appends one TagInfo. -/
def scanRepoPatternTags (cinfo : String → String → Option CommitInfo) (repo : RepoEntry)
    (accept : String → Bool) (max_results : Int) :
    List String → List TagInfo → List TagInfo
  | [], found => found
  | tag :: rest, found =>
    if (found.length : Int) ≥ max_results then found
    else if accept tag then
      scanRepoPatternTags cinfo repo accept max_results rest
        (found ++ [mkTagInfo repo tag (cinfo repo.name tag)])
    else scanRepoPatternTags cinfo repo accept max_results rest found

/-- The repository loop of scan_organization_for_patterns
(lines 339-366): a repository with a falsy name, or reached after the
global cap, is skipped; a tag-listing failure aborts the whole scan; an
inspected repository contributes the matches of its first ten tags. -/
def scanPatternRepos (api : String → TagFetch) (cinfo : String → String → Option CommitInfo)
    (accept : String → Bool) (max_results : Int) :
    List RepoEntry → List TagInfo → Except Unit (List TagInfo)
  | [], found => .ok found
  | repo :: rest, found =>
    if repo.name = "" ∨ (found.length : Int) ≥ max_results then
      scanPatternRepos api cinfo accept max_results rest found
    else
      match get_repository_tags api repo.name with
      | .error e => .error e
      | .ok tags =>
        scanPatternRepos api cinfo accept max_results rest
          (scanRepoPatternTags cinfo repo accept max_results (tags.take 10) found)

/-- scan_organization_for_patterns (lines 312-379): repositories_with_tag
is the number of distinct repository names across the matches. -/
def scan_organization_for_patterns (repositories : List RepoEntry) (api : String → TagFetch)
    (cinfo : String → String → Option CommitInfo) (version_pattern : String)
    (max_results : Int) : Except Unit ScanResult :=
  match scanPatternRepos api cinfo (tag_matches_version_pattern version_pattern) max_results
      repositories [] with
  | .error e => .error e
  | .ok found_tags =>
    .ok { total_repositories_scanned := repositories.length
          repositories_with_tag := ((found_tags.map (fun t => t.repository_name)).dedup).length
          tags_found := found_tags }

/-! ## Frame predicates and concrete example values -/

/-- All fields of a repository record other than the two deployment
annotations agree. -/
def RecordFrame (r s : RepoRecord) : Prop :=
  s.repository_name = r.repository_name ∧ s.commit_id = r.commit_id ∧
  s.commit_short = r.commit_short ∧ s.author = r.author ∧ s.author_email = r.author_email ∧
  s.date = r.date ∧ s.message = r.message ∧ s.repository_url = r.repository_url ∧
  s.tag_url = r.tag_url ∧ s.repository_path = r.repository_path

/-- Two tag groups agree on everything except the per-record deployment
annotations and the deployment_environments summary. -/
def GroupFrame (g h : TagGroup) : Prop :=
  h.tag_name = g.tag_name ∧ List.Forall₂ RecordFrame g.repositories h.repositories ∧
  h.summary.total_repositories = g.summary.total_repositories ∧
  h.summary.latest_commit_date = g.summary.latest_commit_date

/-- A concrete input match for the transformer. -/
def entA : ApiTagEntry :=
  { tag_name := "1.0.0"
    commit_id := "abc1234def"
    author := "Ada <ada@x.io>"
    date := "2024-01-01T00:00:00Z"
    message := "release"
    repository_name := "svc-a"
    repository_url := "https://x/svc-a"
    tag_url := "https://x/svc-a/releases/tag/1.0.0"
    repository_path := none }

/-- A second match for the same tag in another repository. -/
def entB : ApiTagEntry :=
  { entA with
    repository_name := "svc-b"
    repository_url := "https://x/svc-b"
    date := "2024-03-01T00:00:00Z" }

/-- A match for a different tag in the second repository. -/
def entB2 : ApiTagEntry :=
  { entB with tag_name := "2.0.0" }

/-- A transformer input in which the same repository appears twice under
the same tag. -/
def apiDup : ApiResponse :=
  { scan_duration_seconds := 3
    total_repositories_scanned := 2
    tags_found := [entA, entA] }

/-- A transformer input with pairwise distinct (tag, repository) pairs. -/
def apiDistinct : ApiResponse :=
  { scan_duration_seconds := 3
    total_repositories_scanned := 2
    tags_found := [entA, entB] }

/-- Concrete metadata for the example datasets. -/
def metaA : Metadata :=
  { last_updated := "2024-06-01T00:00:00Z"
    scan_duration_seconds := 3
    organization := "org"
    total_repositories_scanned := 2
    scan_type := "specific_tag"
    version := "1.0.0" }

/-- Metadata of the second example dataset. -/
def metaB : Metadata :=
  { metaA with last_updated := "2024-07-01T00:00:00Z" }

/-- Example tag group for tag 1.0.0. -/
def grpA : TagGroup := mkTagGroup "1.0.0" [entA]

/-- Example tag group for tag 2.0.0. -/
def grpB : TagGroup := mkTagGroup "2.0.0" [entB2]

/-- Example dataset with one tag and consistent statistics. -/
def dsA : AggregatedDataset :=
  { metadata := metaA
    tags := [("1.0.0", grpA)]
    statistics := statisticsOfTags [("1.0.0", grpA)] }

/-- A second example dataset with a different single tag. -/
def dsB : AggregatedDataset :=
  { metadata := metaB
    tags := [("2.0.0", grpB)]
    statistics := statisticsOfTags [("2.0.0", grpB)] }

/-- A concrete deployment configuration covering svc-a at tag 1.0.0. -/
def cfg0 : List (String × RepoDeployConfig) :=
  [("svc-a",
    { deployed_versions := [("1.0.0", { status := some "deployed", environment := some "prod" })] })]

/-- A concrete two-repository organization listing. -/
def reposAB : List RepoEntry :=
  [{ name := "svc-a", url := "https://x/svc-a" }, { name := "svc-b", url := "https://x/svc-b" }]

/-- A tag source where both repositories answer normally. -/
def apiGood : String → TagFetch :=
  fun n => if n = "svc-a" then TagFetch.ok ["1.0.0", "v1.0.5"] else TagFetch.ok ["2.0.0"]

/-- A tag source where the first repository fails with a non-404 error
and the second would have matched. -/
def apiOther : String → TagFetch :=
  fun n => if n = "svc-a" then TagFetch.errOther else TagFetch.ok ["1.0.0"]

/-- A commit-info source that always fails to resolve metadata. -/
def noCommitInfo : String → String → Option CommitInfo :=
  fun _ _ => none

/-- The result of the concrete exact-tag scan over reposAB with apiGood. -/
def exactRes0 : ScanResult :=
  { total_repositories_scanned := 2
    repositories_with_tag := 1
    tags_found := [mkTagInfo { name := "svc-a", url := "https://x/svc-a" } "1.0.0" none] }

/-- The result of the concrete pattern scan for 1.0 over reposAB with
apiGood: one repository contributes two matches. -/
def patRes0 : ScanResult :=
  { total_repositories_scanned := 2
    repositories_with_tag := 1
    tags_found :=
      [mkTagInfo { name := "svc-a", url := "https://x/svc-a" } "1.0.0" none,
       mkTagInfo { name := "svc-a", url := "https://x/svc-a" } "v1.0.5" none] }

/-- The result of the concrete pattern scan with the empty pattern over
reposAB with apiGood: the scan runs and succeeds with no matches. -/
def emptyPatRes0 : ScanResult :=
  { total_repositories_scanned := 2
    repositories_with_tag := 0
    tags_found := [] }

/-! ## Lemmas about the dict model -/

theorem dictUpdate_nil {α : Type} (d : List (String × α)) : dictUpdate d [] = d := rfl

theorem dictUpdate_cons {α : Type} (d : List (String × α)) (k : String) (v : α)
    (rest : List (String × α)) :
    dictUpdate d ((k, v) :: rest) = dictUpdate (dictSet d k v) rest := rfl

theorem dictGet_set_self {α : Type} (d : List (String × α)) (k : String) (v : α) :
    dictGet (dictSet d k v) k = some v := by
  induction d with
  | nil => simp [dictSet, dictGet]
  | cons hd tl ih =>
    obtain ⟨k', v'⟩ := hd
    by_cases h : k' = k
    · simp [dictSet, dictGet, h]
    · simp [dictSet, dictGet, h, ih]

theorem dictGet_set_ne {α : Type} (d : List (String × α)) (k t : String) (v : α) (h : t ≠ k) :
    dictGet (dictSet d k v) t = dictGet d t := by
  induction d with
  | nil =>
    simp only [dictSet, dictGet]
    rw [if_neg (Ne.symm h)]
  | cons hd tl ih =>
    obtain ⟨k', v'⟩ := hd
    by_cases hk : k' = k
    · subst hk
      simp only [dictSet, if_pos rfl, dictGet]
      rw [if_neg (Ne.symm h), if_neg (Ne.symm h)]
    · simp only [dictSet, if_neg hk, dictGet]
      by_cases ht : k' = t
      · rw [if_pos ht, if_pos ht]
      · rw [if_neg ht, if_neg ht, ih]

theorem mem_keys_set {α : Type} (d : List (String × α)) (k t : String) (v : α) :
    t ∈ (dictSet d k v).map Prod.fst ↔ t = k ∨ t ∈ d.map Prod.fst := by
  induction d with
  | nil => simp [dictSet]
  | cons hd tl ih =>
    obtain ⟨k', v'⟩ := hd
    by_cases h : k' = k
    · subst h
      simp [dictSet]
    · simp only [dictSet, if_neg h, List.map_cons, List.mem_cons, ih]
      tauto

theorem mem_of_dictSet {α : Type} {d : List (String × α)} {k : String} {v : α}
    {p : String × α} (hp : p ∈ dictSet d k v) : p.2 = v ∨ p ∈ d := by
  induction d with
  | nil =>
    simp [dictSet] at hp
    exact Or.inl (by rw [hp])
  | cons hd tl ih =>
    obtain ⟨k', v'⟩ := hd
    by_cases h : k' = k
    · simp only [dictSet, if_pos h, List.mem_cons] at hp
      rcases hp with hp | hp
      · exact Or.inl (by rw [hp])
      · exact Or.inr (List.mem_cons_of_mem _ hp)
    · simp only [dictSet, if_neg h, List.mem_cons] at hp
      rcases hp with hp | hp
      · exact Or.inr (by rw [hp]; exact List.mem_cons_self _ _)
      · rcases ih hp with h2 | h2
        · exact Or.inl h2
        · exact Or.inr (List.mem_cons_of_mem _ h2)

theorem dictGet_update_not_mem {α : Type} (new : List (String × α)) (d : List (String × α))
    (t : String) (h : t ∉ new.map Prod.fst) :
    dictGet (dictUpdate d new) t = dictGet d t := by
  induction new generalizing d with
  | nil => rfl
  | cons hd tl ih =>
    obtain ⟨k, v⟩ := hd
    simp only [List.map_cons, List.mem_cons, not_or] at h
    rw [dictUpdate_cons, ih (dictSet d k v) h.2, dictGet_set_ne d k t v h.1]

theorem dictGet_update_mem {α : Type} (new : List (String × α)) (d : List (String × α))
    (t : String) (hnd : (new.map Prod.fst).Nodup) (h : t ∈ new.map Prod.fst) :
    dictGet (dictUpdate d new) t = dictGet new t := by
  induction new generalizing d with
  | nil => simp at h
  | cons hd tl ih =>
    obtain ⟨k, v⟩ := hd
    rw [List.map_cons, List.nodup_cons] at hnd
    by_cases ht : t = k
    · subst ht
      rw [dictUpdate_cons, dictGet_update_not_mem tl (dictSet d t v) t hnd.1,
        dictGet_set_self]
      simp [dictGet]
    · have htl : t ∈ tl.map Prod.fst := by
        rw [List.map_cons] at h
        rcases List.mem_cons.mp h with h1 | h1
        · exact absurd h1 ht
        · exact h1
      rw [dictUpdate_cons, ih (dictSet d k v) hnd.2 htl]
      simp [dictGet, Ne.symm ht]

theorem mem_keys_update {α : Type} (new d : List (String × α)) (t : String) :
    t ∈ (dictUpdate d new).map Prod.fst ↔ t ∈ d.map Prod.fst ∨ t ∈ new.map Prod.fst := by
  induction new generalizing d with
  | nil => simp [dictUpdate]
  | cons hd tl ih =>
    obtain ⟨k, v⟩ := hd
    rw [dictUpdate_cons, ih, mem_keys_set]
    simp only [List.map_cons, List.mem_cons]
    tauto

theorem mem_dictUpdate {α : Type} {new d : List (String × α)} {p : String × α}
    (hp : p ∈ dictUpdate d new) : p ∈ d ∨ p.2 ∈ new.map Prod.snd := by
  induction new generalizing d with
  | nil => exact Or.inl hp
  | cons hd tl ih =>
    obtain ⟨k, v⟩ := hd
    rw [dictUpdate_cons] at hp
    rcases ih hp with h1 | h2
    · rcases mem_of_dictSet h1 with hv | hd2
      · exact Or.inr (by simp [hv])
      · exact Or.inl hd2
    · refine Or.inr ?_
      simp only [List.map_cons, List.mem_cons]
      exact Or.inr h2

/-! ## C1 and C7: merge behaviour -/

/-- C1: the claim states that merge leaves both inputs unchanged,
including the tags map of existing. The code shallow-copies the
top-level dict and then mutates the shared tags dict with update, so
after the call the tags map of existing equals the merged tags map (here
at concrete inputs dsA and dsB), while metadata and statistics of
existing are untouched. This refutes the claim at a concrete input. -/
theorem merge_mutates_existing :
    (merge_scan_results dsA dsB).2.tags ≠ dsA.tags ∧
    (merge_scan_results dsA dsB).2.tags = (merge_scan_results dsA dsB).1.tags ∧
    (merge_scan_results dsA dsB).2.metadata = dsA.metadata ∧
    (merge_scan_results dsA dsB).2.statistics = dsA.statistics := by
  refine ⟨fun heq => ?_, rfl, rfl, rfl⟩
  have h : (merge_scan_results dsA dsB).2.tags.length ≠ dsA.tags.length := by decide
  exact h (congrArg List.length heq)

/-- C7: merge is right-biased per tag. For well-formed incoming tags
(distinct keys), every tag present in B maps to the B group in the merge
result, tags absent from B keep their A group, and the merged key set is
the union of both key sets. -/
theorem merge_right_biased (A B : AggregatedDataset) (hB : (B.tags.map Prod.fst).Nodup) :
    (∀ t, t ∈ B.tags.map Prod.fst →
      dictGet (merge_scan_results A B).1.tags t = dictGet B.tags t) ∧
    (∀ t, t ∉ B.tags.map Prod.fst →
      dictGet (merge_scan_results A B).1.tags t = dictGet A.tags t) ∧
    (∀ t, t ∈ (merge_scan_results A B).1.tags.map Prod.fst ↔
      t ∈ A.tags.map Prod.fst ∨ t ∈ B.tags.map Prod.fst) := by
  refine ⟨?_, ?_, ?_⟩
  · intro t ht
    exact dictGet_update_mem B.tags A.tags t hB ht
  · intro t ht
    exact dictGet_update_not_mem B.tags A.tags t ht
  · intro t
    exact mem_keys_update B.tags A.tags t

/-- Witness for C7 at the concrete datasets dsA and dsB and tag 2.0.0. -/
theorem merge_right_biased_witness :
    (dsB.tags.map Prod.fst).Nodup ∧
    "2.0.0" ∈ dsB.tags.map Prod.fst ∧
    dictGet (merge_scan_results dsA dsB).1.tags "2.0.0" = dictGet dsB.tags "2.0.0" :=
  ⟨by decide, by decide, (merge_right_biased dsA dsB (by decide)).1 "2.0.0" (by decide)⟩

/-! ## Enhancement lemmas, C8 and C10 -/

theorem enhanceRecord_frame (cfg : List (String × RepoDeployConfig)) (tn : String)
    (r : RepoRecord) : RecordFrame r (enhanceRecord cfg tn r) := by
  unfold enhanceRecord
  split
  · exact ⟨rfl, rfl, rfl, rfl, rfl, rfl, rfl, rfl, rfl, rfl⟩
  · split <;> exact ⟨rfl, rfl, rfl, rfl, rfl, rfl, rfl, rfl, rfl, rfl⟩

theorem enhanceRecord_name (cfg : List (String × RepoDeployConfig)) (tn : String)
    (r : RepoRecord) : (enhanceRecord cfg tn r).repository_name = r.repository_name :=
  (enhanceRecord_frame cfg tn r).1

theorem flatten_map_name (L : List (List RepoRecord)) :
    L.flatten.map (fun r => r.repository_name) =
      (L.map (fun l => l.map (fun r => r.repository_name))).flatten := by
  induction L with
  | nil => rfl
  | cons h t ih => simp [ih]

theorem enhance_tags_shape (ds : AggregatedDataset) (cfg : List (String × RepoDeployConfig)) :
    ((enhance_with_deployment_info ds cfg).tags.map (fun p => p.1)) =
        ds.tags.map (fun p => p.1) ∧
    ((enhance_with_deployment_info ds cfg).tags.map
        (fun p => p.2.repositories.map (fun r => r.repository_name))) =
      ds.tags.map (fun p => p.2.repositories.map (fun r => r.repository_name)) ∧
    ((enhance_with_deployment_info ds cfg).tags.map
        (fun p => (p.1, p.2.summary.total_repositories))) =
      ds.tags.map (fun p => (p.1, p.2.summary.total_repositories)) ∧
    ((enhance_with_deployment_info ds cfg).tags.map
        (fun p => p.2.summary.latest_commit_date)) =
      ds.tags.map (fun p => p.2.summary.latest_commit_date) := by
  unfold enhance_with_deployment_info
  simp only [List.map_map]
  refine ⟨?_, ?_, ?_, ?_⟩
  · apply List.map_congr_left
    intro p _
    rfl
  · apply List.map_congr_left
    intro p _
    show (p.2.repositories.map (enhanceRecord cfg p.1)).map (fun r => r.repository_name) =
      p.2.repositories.map (fun r => r.repository_name)
    rw [List.map_map]
    apply List.map_congr_left
    intro r _
    exact enhanceRecord_name cfg p.1 r
  · apply List.map_congr_left
    intro p _
    rfl
  · apply List.map_congr_left
    intro p _
    rfl

theorem statisticsOfTags_enhance (ds : AggregatedDataset)
    (cfg : List (String × RepoDeployConfig)) :
    statisticsOfTags (enhance_with_deployment_info ds cfg).tags = statisticsOfTags ds.tags := by
  obtain ⟨h1, h2, h5, h4⟩ := enhance_tags_shape ds cfg
  have hlen : (enhance_with_deployment_info ds cfg).tags.length = ds.tags.length := by
    have := congrArg List.length h1
    simpa using this
  have hnames :
      (((enhance_with_deployment_info ds cfg).tags.map
          (fun p => p.2.repositories)).flatten.map (fun r => r.repository_name)) =
        ((ds.tags.map (fun p => p.2.repositories)).flatten.map (fun r => r.repository_name)) := by
    rw [flatten_map_name, flatten_map_name, List.map_map, List.map_map]
    exact congrArg List.flatten h2
  unfold statisticsOfTags
  simp only [hlen, hnames, h5, h4]

/-- C8: the statistics block always equals the pure function
statisticsOfTags of the tags mapping: aggregation and merge recompute it
from the tags they produce, and deployment enhancement, which carries the
statistics over unchanged, preserves the equality because it never
touches the fields the statistics read. -/
theorem statistics_recomputed :
    (∀ sv now api_response org st,
      (transform_api_response sv now api_response org st).statistics =
        statisticsOfTags (transform_api_response sv now api_response org st).tags) ∧
    (∀ A B : AggregatedDataset,
      (merge_scan_results A B).1.statistics =
        statisticsOfTags (merge_scan_results A B).1.tags) ∧
    (∀ (ds : AggregatedDataset) (cfg : List (String × RepoDeployConfig)),
      ds.statistics = statisticsOfTags ds.tags →
      (enhance_with_deployment_info ds cfg).statistics =
        statisticsOfTags (enhance_with_deployment_info ds cfg).tags) := by
  refine ⟨?_, ?_, ?_⟩
  · intro sv now api_response org st
    rfl
  · intro A B
    rfl
  · intro ds cfg h
    have h2 : (enhance_with_deployment_info ds cfg).statistics = ds.statistics := rfl
    rw [h2, h, statisticsOfTags_enhance]

/-- Witness for C8 at the concrete dataset dsA and configuration cfg0. -/
theorem statistics_recomputed_witness :
    dsA.statistics = statisticsOfTags dsA.tags ∧
    (enhance_with_deployment_info dsA cfg0).statistics =
      statisticsOfTags (enhance_with_deployment_info dsA cfg0).tags :=
  ⟨rfl, statistics_recomputed.2.2 dsA cfg0 rfl⟩

/-- C10: deployment enhancement changes at most the two deployment
annotations of each repository record and the deployment_environments
summary of each group: metadata and statistics are returned unchanged,
the tag keys keep their order, every group keeps its tag_name, its
record count and order, all non-deployment record fields, its
total_repositories and its latest_commit_date. -/
theorem enhancement_frame (ds : AggregatedDataset) (cfg : List (String × RepoDeployConfig)) :
    (enhance_with_deployment_info ds cfg).metadata = ds.metadata ∧
    (enhance_with_deployment_info ds cfg).statistics = ds.statistics ∧
    List.Forall₂ (fun (p q : String × TagGroup) => q.1 = p.1 ∧ GroupFrame p.2 q.2)
      ds.tags (enhance_with_deployment_info ds cfg).tags := by
  refine ⟨rfl, rfl, ?_⟩
  unfold enhance_with_deployment_info
  simp only [List.map_map]
  rw [List.forall₂_map_right_iff, List.forall₂_same]
  intro p _
  refine ⟨rfl, rfl, ?_, rfl, rfl⟩
  show List.Forall₂ RecordFrame p.2.repositories
    (p.2.repositories.map (enhanceRecord cfg p.1))
  rw [List.forall₂_map_right_iff, List.forall₂_same]
  intro r _
  exact enhanceRecord_frame cfg p.1 r

/-! ## Grouping lemmas and C3 -/

theorem addToGroup_get_eq (acc : List (String × List ApiTagEntry)) (k : String)
    (e : ApiTagEntry) :
    dictGet (addToGroup acc k e) k = some ((dictGet acc k).getD [] ++ [e]) := by
  induction acc with
  | nil => simp [addToGroup, dictGet]
  | cons hd tl ih =>
    obtain ⟨k', g⟩ := hd
    by_cases h : k' = k
    · simp [addToGroup, dictGet, h]
    · simp [addToGroup, dictGet, h, ih]

theorem addToGroup_get_ne (acc : List (String × List ApiTagEntry)) (k t : String)
    (e : ApiTagEntry) (h : t ≠ k) :
    dictGet (addToGroup acc k e) t = dictGet acc t := by
  induction acc with
  | nil =>
    simp only [addToGroup, dictGet]
    rw [if_neg (Ne.symm h)]
  | cons hd tl ih =>
    obtain ⟨k', g⟩ := hd
    by_cases hk : k' = k
    · subst hk
      simp only [addToGroup, if_pos rfl, dictGet]
      rw [if_neg (Ne.symm h), if_neg (Ne.symm h)]
    · simp only [addToGroup, if_neg hk, dictGet]
      by_cases ht : k' = t
      · rw [if_pos ht, if_pos ht]
      · rw [if_neg ht, if_neg ht, ih]

theorem mem_keys_addToGroup (acc : List (String × List ApiTagEntry)) (k t : String)
    (e : ApiTagEntry) :
    t ∈ (addToGroup acc k e).map Prod.fst ↔ t = k ∨ t ∈ acc.map Prod.fst := by
  induction acc with
  | nil => simp [addToGroup]
  | cons hd tl ih =>
    obtain ⟨k', g⟩ := hd
    by_cases h : k' = k
    · subst h
      simp [addToGroup]
    · simp only [addToGroup, if_neg h, List.map_cons, List.mem_cons, ih]
      tauto

theorem nodup_keys_addToGroup (acc : List (String × List ApiTagEntry)) (k : String)
    (e : ApiTagEntry) (hnd : (acc.map Prod.fst).Nodup) :
    ((addToGroup acc k e).map Prod.fst).Nodup := by
  induction acc with
  | nil => simp [addToGroup]
  | cons hd tl ih =>
    obtain ⟨k', g⟩ := hd
    rw [List.map_cons, List.nodup_cons] at hnd
    by_cases h : k' = k
    · subst h
      have heq : addToGroup ((k', g) :: tl) k' e = (k', g ++ [e]) :: tl := by
        simp [addToGroup]
      rw [heq, List.map_cons, List.nodup_cons]
      exact hnd
    · simp only [addToGroup, if_neg h, List.map_cons, List.nodup_cons]
      refine ⟨?_, ih hnd.2⟩
      rw [mem_keys_addToGroup]
      push_neg
      exact ⟨h, hnd.1⟩

theorem groupFold_get (l : List ApiTagEntry) :
    ∀ (acc : List (String × List ApiTagEntry)) (t : String) (g : List ApiTagEntry),
    dictGet (l.foldl (fun a e => addToGroup a e.tag_name e) acc) t = some g →
    (∃ g0, dictGet acc t = some g0 ∧ g = g0 ++ l.filter (fun e => e.tag_name == t)) ∨
    (dictGet acc t = none ∧ g = l.filter (fun e => e.tag_name == t)) := by
  induction l with
  | nil =>
    intro acc t g h
    exact Or.inl ⟨g, h, by simp⟩
  | cons e l ih =>
    intro acc t g h
    rw [List.foldl_cons] at h
    by_cases he : e.tag_name = t
    · have hacc : dictGet (addToGroup acc e.tag_name e) t =
          some ((dictGet acc t).getD [] ++ [e]) := by
        rw [← he] at *
        exact addToGroup_get_eq acc e.tag_name e
      have hfil : (e :: l).filter (fun x => x.tag_name == t) =
          e :: l.filter (fun x => x.tag_name == t) := by
        rw [List.filter_cons_of_pos]
        simp [he]
      rcases ih (addToGroup acc e.tag_name e) t g h with ⟨g0, hg0, hg⟩ | ⟨hnone, _⟩
      · have hg0eq : g0 = (dictGet acc t).getD [] ++ [e] := by
          rw [hacc] at hg0
          exact (Option.some_injective _ hg0).symm
        cases hget : dictGet acc t with
        | some ga =>
          refine Or.inl ⟨ga, rfl, ?_⟩
          rw [hg, hg0eq, hget, hfil]
          simp
        | none =>
          refine Or.inr ⟨rfl, ?_⟩
          rw [hg, hg0eq, hget, hfil]
          simp
      · rw [hacc] at hnone
        cases hnone
    · have hacc : dictGet (addToGroup acc e.tag_name e) t = dictGet acc t :=
        addToGroup_get_ne acc e.tag_name t e (fun hh => he hh.symm)
      have hfil : (e :: l).filter (fun x => x.tag_name == t) =
          l.filter (fun x => x.tag_name == t) := by
        rw [List.filter_cons_of_neg]
        simp [he]
      rcases ih (addToGroup acc e.tag_name e) t g h with ⟨g0, hg0, hg⟩ | ⟨hnone, hg⟩
      · rw [hacc] at hg0
        exact Or.inl ⟨g0, hg0, by rw [hg, hfil]⟩
      · rw [hacc] at hnone
        exact Or.inr ⟨hnone, by rw [hg, hfil]⟩

theorem groupFold_keys_nodup (l : List ApiTagEntry) :
    ∀ acc, ((acc : List (String × List ApiTagEntry)).map Prod.fst).Nodup →
    (((l.foldl (fun a e => addToGroup a e.tag_name e) acc)).map Prod.fst).Nodup := by
  induction l with
  | nil => intro acc h; exact h
  | cons e l ih =>
    intro acc h
    rw [List.foldl_cons]
    exact ih _ (nodup_keys_addToGroup acc e.tag_name e h)

theorem dictGet_of_mem_nodup {α : Type} {d : List (String × α)} {t : String} {v : α}
    (hnd : (d.map Prod.fst).Nodup) (h : (t, v) ∈ d) : dictGet d t = some v := by
  induction d with
  | nil => cases h
  | cons hd tl ih =>
    obtain ⟨k', v'⟩ := hd
    rw [List.map_cons, List.nodup_cons] at hnd
    rcases List.mem_cons.mp h with h1 | h1
    · rw [Prod.mk.injEq] at h1
      simp [dictGet, h1.1, h1.2]
    · have hne : k' ≠ t := by
        intro hkt
        apply hnd.1
        show k' ∈ List.map Prod.fst tl
        rw [hkt]
        exact List.mem_map_of_mem Prod.fst h1
      simp only [dictGet, if_neg hne]
      exact ih hnd.2 h1

theorem groupByTag_eq_filter {l : List ApiTagEntry} {t : String} {g : List ApiTagEntry}
    (h : (t, g) ∈ groupByTag l) : g = l.filter (fun e => e.tag_name == t) := by
  have hnd : ((groupByTag l).map Prod.fst).Nodup := groupFold_keys_nodup l [] (by simp)
  have hget : dictGet (groupByTag l) t = some g := dictGet_of_mem_nodup hnd h
  rcases groupFold_get l [] t g hget with ⟨g0, hg0, _⟩ | ⟨_, hg⟩
  · simp [dictGet] at hg0
  · exact hg

/-- C3 counterexample: the input apiDup carries the same repository twice
under the same tag; aggregation appends both, producing a TagGroup whose
repository_name values are not pairwise distinct, so re-adding does not
replace the record. -/
theorem aggregation_duplicates_not_replaced :
    ((transform_api_response "1.0.0" "2024-06-01T00:00:00" apiDup (some "org")
        "specific_tag").tags.map
      (fun p => p.2.repositories.map (fun r => r.repository_name))) = [["svc-a", "svc-a"]] ∧
    ¬ (["svc-a", "svc-a"] : List String).Nodup :=
  ⟨rfl, by decide⟩

/-- C3 as amended: aggregation appends one record per input match and
does not deduplicate by repository name, so distinctness of
repository_name values within each TagGroup holds exactly when the input
matches carry no duplicate (tag_name, repository_name) pair; merge (which
takes every group wholesale from one of its inputs) and enhancement
(which never adds or removes records) preserve the distinctness. -/
theorem taggroup_names_distinct :
    (∀ (sv now : String) (api_response : ApiResponse) (org : Option String) (st : String),
      (api_response.tags_found.map (fun e => (e.tag_name, e.repository_name))).Nodup →
      ∀ p ∈ (transform_api_response sv now api_response org st).tags,
        (p.2.repositories.map (fun r => r.repository_name)).Nodup) ∧
    (∀ A B : AggregatedDataset,
      (∀ p ∈ A.tags, (p.2.repositories.map (fun r => r.repository_name)).Nodup) →
      (∀ p ∈ B.tags, (p.2.repositories.map (fun r => r.repository_name)).Nodup) →
      ∀ p ∈ (merge_scan_results A B).1.tags,
        (p.2.repositories.map (fun r => r.repository_name)).Nodup) ∧
    (∀ (ds : AggregatedDataset) (cfg : List (String × RepoDeployConfig)),
      (∀ p ∈ ds.tags, (p.2.repositories.map (fun r => r.repository_name)).Nodup) →
      ∀ p ∈ (enhance_with_deployment_info ds cfg).tags,
        (p.2.repositories.map (fun r => r.repository_name)).Nodup) := by
  refine ⟨?_, ?_, ?_⟩
  · intro sv now api_response org st hpairs p hp
    have hp' : p ∈ (groupByTag api_response.tags_found).map
        (fun q => (q.1, mkTagGroup q.1 q.2)) := hp
    rcases List.mem_map.mp hp' with ⟨q, hq, rfl⟩
    obtain ⟨t, grp⟩ := q
    have hgrp : grp = api_response.tags_found.filter (fun e => e.tag_name == t) :=
      groupByTag_eq_filter hq
    show ((grp.map mkRepoRecord).map (fun r => r.repository_name)).Nodup
    rw [List.map_map]
    have hname : grp.map ((fun r => r.repository_name) ∘ mkRepoRecord) =
        grp.map (fun e => e.repository_name) := by
      apply List.map_congr_left
      intro e _
      rfl
    rw [hname]
    have hsub : List.Sublist (grp.map (fun e => (e.tag_name, e.repository_name)))
        (api_response.tags_found.map (fun e => (e.tag_name, e.repository_name))) := by
      rw [hgrp]
      exact (List.filter_sublist _).map _
    have hnd1 : (grp.map (fun e => (e.tag_name, e.repository_name))).Nodup :=
      hpairs.sublist hsub
    have hall : ∀ e ∈ grp, e.tag_name = t := by
      intro e he
      rw [hgrp] at he
      have := List.of_mem_filter he
      simpa using this
    have hmapeq : grp.map (fun e => (e.tag_name, e.repository_name)) =
        (grp.map (fun e => e.repository_name)).map (fun n => (t, n)) := by
      rw [List.map_map]
      apply List.map_congr_left
      intro e he
      simp [hall e he]
    rw [hmapeq] at hnd1
    exact hnd1.of_map _
  · intro A B hA hB p hp
    rcases mem_dictUpdate hp with h1 | h1
    · exact hA p h1
    · rcases List.mem_map.mp h1 with ⟨q, hq, hpq⟩
      have hrepos : p.2.repositories = q.2.repositories := by rw [hpq]
      rw [hrepos]
      exact hB q hq
  · intro ds cfg hds p hp
    have hp' : p ∈ (enhance_with_deployment_info ds cfg).tags := hp
    unfold enhance_with_deployment_info at hp'
    simp only [List.map_map] at hp'
    rcases List.mem_map.mp hp' with ⟨q, hq, rfl⟩
    show (((q.2.repositories.map (enhanceRecord cfg q.1)).map
      (fun r => r.repository_name))).Nodup
    rw [List.map_map]
    have hname : q.2.repositories.map
        ((fun r => r.repository_name) ∘ enhanceRecord cfg q.1) =
        q.2.repositories.map (fun r => r.repository_name) := by
      apply List.map_congr_left
      intro r _
      exact enhanceRecord_name cfg q.1 r
    rw [hname]
    exact hds q hq

/-- Witness for C3 at the concrete duplicate-free input apiDistinct. -/
theorem taggroup_names_distinct_witness :
    (apiDistinct.tags_found.map (fun e => (e.tag_name, e.repository_name))).Nodup ∧
    ((("1.0.0", mkTagGroup "1.0.0" [entA, entB]) : String × TagGroup).2.repositories.map
        (fun r => r.repository_name)).Nodup := by
  have hmem : (("1.0.0", mkTagGroup "1.0.0" [entA, entB]) : String × TagGroup) ∈
      (transform_api_response "1.0.0" "2024-06-01T00:00:00" apiDistinct (some "org")
        "specific_tag").tags := by
    have htags : (transform_api_response "1.0.0" "2024-06-01T00:00:00" apiDistinct (some "org")
        "specific_tag").tags = [("1.0.0", mkTagGroup "1.0.0" [entA, entB])] := rfl
    rw [htags]
    exact List.mem_singleton.mpr rfl
  exact ⟨by decide,
    taggroup_names_distinct.1 "1.0.0" "2024-06-01T00:00:00" apiDistinct (some "org")
      "specific_tag" (by decide) _ hmem⟩

/-! ## Scan-engine lemmas -/

theorem get_repository_tags_ok (api : String → TagFetch) (n : String)
    (h : api n ≠ TagFetch.errOther) :
    ∃ ts, get_repository_tags api n = Except.ok ts := by
  unfold get_repository_tags
  cases hf : api n with
  | ok tags_data => exact ⟨_, rfl⟩
  | err404 => exact ⟨[], rfl⟩
  | errOther => exact absurd hf h

theorem scanTagRepos_ok (api : String → TagFetch) (cinfo : String → String → Option CommitInfo)
    (pats : List String) :
    ∀ repos : List RepoEntry, (∀ r ∈ repos, r.name ≠ "" → api r.name ≠ TagFetch.errOther) →
    ∃ l, scanTagRepos api cinfo pats repos = Except.ok l := by
  intro repos
  induction repos with
  | nil => intro _; exact ⟨[], rfl⟩
  | cons repo rest ih =>
    intro h
    obtain ⟨l, hl⟩ := ih (fun r hr => h r (List.mem_cons_of_mem _ hr))
    by_cases hname : repo.name = ""
    · exact ⟨l, by simp only [scanTagRepos, if_pos hname]; exact hl⟩
    · obtain ⟨ts, hts⟩ :=
        get_repository_tags_ok api repo.name (h repo (List.mem_cons_self _ _) hname)
      cases hm : repoExactMatch pats ts with
      | some p =>
        exact ⟨mkTagInfo repo p (cinfo repo.name p) :: l,
          by simp only [scanTagRepos, if_neg hname, hts, hl, hm]⟩
      | none =>
        exact ⟨l, by simp only [scanTagRepos, if_neg hname, hts, hl, hm]⟩

theorem scanPatternRepos_ok (api : String → TagFetch)
    (cinfo : String → String → Option CommitInfo) (accept : String → Bool) (mx : Int) :
    ∀ (repos : List RepoEntry) (found : List TagInfo),
    (∀ r ∈ repos, r.name ≠ "" → api r.name ≠ TagFetch.errOther) →
    ∃ l, scanPatternRepos api cinfo accept mx repos found = Except.ok l := by
  intro repos
  induction repos with
  | nil => intro found _; exact ⟨found, rfl⟩
  | cons repo rest ih =>
    intro found h
    by_cases hskip : repo.name = "" ∨ (found.length : Int) ≥ mx
    · obtain ⟨l, hl⟩ := ih found (fun r hr => h r (List.mem_cons_of_mem _ hr))
      exact ⟨l, by simp only [scanPatternRepos, if_pos hskip]; exact hl⟩
    · push_neg at hskip
      obtain ⟨ts, hts⟩ :=
        get_repository_tags_ok api repo.name (h repo (List.mem_cons_self _ _) hskip.1)
      obtain ⟨l, hl⟩ := ih (scanRepoPatternTags cinfo repo accept mx (ts.take 10) found)
        (fun r hr => h r (List.mem_cons_of_mem _ hr))
      refine ⟨l, ?_⟩
      have hcond : ¬ (repo.name = "" ∨ (found.length : Int) ≥ mx) := by
        push_neg
        exact hskip
      simp only [scanPatternRepos, if_neg hcond, hts]
      exact hl

theorem scanTagRepos_names_sublist (api : String → TagFetch)
    (cinfo : String → String → Option CommitInfo) (pats : List String) :
    ∀ (repos : List RepoEntry) (l : List TagInfo),
    scanTagRepos api cinfo pats repos = Except.ok l →
    List.Sublist (l.map (fun t => t.repository_name)) (repos.map (fun r => r.name)) := by
  intro repos
  induction repos with
  | nil =>
    intro l h
    simp only [scanTagRepos, Except.ok.injEq] at h
    subst h
    simp
  | cons repo rest ih =>
    intro l h
    by_cases hname : repo.name = ""
    · simp only [scanTagRepos, if_pos hname] at h
      exact (ih l h).cons _
    · simp only [scanTagRepos, if_neg hname] at h
      cases hts : get_repository_tags api repo.name with
      | error e => simp [hts] at h
      | ok ts =>
        simp only [hts] at h
        cases hrec : scanTagRepos api cinfo pats rest with
        | error e => simp [hrec] at h
        | ok rl =>
          simp only [hrec] at h
          cases hm : repoExactMatch pats ts with
          | some p =>
            simp only [hm, Except.ok.injEq] at h
            subst h
            simp only [List.map_cons]
            exact (ih rl hrec).cons₂ _
          | none =>
            simp only [hm, Except.ok.injEq] at h
            subst h
            exact (ih rl hrec).cons _

theorem tag_matches_iff (p t : String) :
    tag_matches_version_pattern p t = true ↔
      (strIsPrefixOf (p ++ ".") t = true ∨ strIsPrefixOf ("v" ++ p ++ ".") t = true ∨
       t = p ∨ t = p ++ "\n" ∨ t = "v" ++ p ∨ t = "v" ++ p ++ "\n") := by
  unfold tag_matches_version_pattern reMatchLitDot reMatchLitEnd
  simp only [Bool.or_eq_true, beq_iff_eq]
  tauto

/-- C2 counterexample: a non-404 tag-listing failure on one repository
(svc-a) aborts the whole exact-tag scan with an error, even though the
other repository (svc-b) would have matched, so a single-repository
lookup failure does make the whole scan operation fail. -/
theorem scan_aborts_on_single_lookup_failure :
    apiOther "svc-a" = TagFetch.errOther ∧
    apiOther "svc-b" = TagFetch.ok ["1.0.0"] ∧
    scan_organization_for_tag reposAB apiOther noCommitInfo "1.0.0" true =
      Except.error () :=
  ⟨rfl, rfl, rfl⟩

/-- C2 as amended: only a 404 tag-listing failure is swallowed as an
empty tag list, and a commit-info lookup failure only degrades the match
(empty commit id, absent author, date and message); when no repository
hits a non-404 tag-listing failure, both scans complete successfully.
A non-404 tag-listing failure, however, aborts the whole scan. -/
theorem scan_partial_failure_amended
    (repos : List RepoEntry) (api : String → TagFetch)
    (cinfo : String → String → Option CommitInfo) (tag_version version_pattern : String)
    (include_patterns : Bool) (max_results : Int)
    (h : ∀ r ∈ repos, r.name ≠ "" → api r.name ≠ TagFetch.errOther) :
    (∃ res, scan_organization_for_tag repos api cinfo tag_version include_patterns =
      Except.ok res) ∧
    (∃ res, scan_organization_for_patterns repos api cinfo version_pattern max_results =
      Except.ok res) ∧
    (∀ n, api n = TagFetch.err404 → get_repository_tags api n = Except.ok []) ∧
    (∀ (repo : RepoEntry) (tag : String),
      (mkTagInfo repo tag none).commit_id = "" ∧ (mkTagInfo repo tag none).author = none ∧
      (mkTagInfo repo tag none).date = none ∧ (mkTagInfo repo tag none).message = none) := by
  refine ⟨?_, ?_, ?_, ?_⟩
  · obtain ⟨l, hl⟩ :=
      scanTagRepos_ok api cinfo (tagPatterns tag_version include_patterns) repos h
    refine ⟨{ total_repositories_scanned := repos.length,
              repositories_with_tag := l.length, tags_found := l }, ?_⟩
    unfold scan_organization_for_tag
    rw [hl]
  · obtain ⟨l, hl⟩ := scanPatternRepos_ok api cinfo
      (tag_matches_version_pattern version_pattern) max_results repos [] h
    refine ⟨{ total_repositories_scanned := repos.length,
              repositories_with_tag := ((l.map (fun t => t.repository_name)).dedup).length,
              tags_found := l }, ?_⟩
    unfold scan_organization_for_patterns
    rw [hl]
  · intro n hn
    unfold get_repository_tags
    rw [hn]
  · intro repo tag
    exact ⟨rfl, rfl, rfl, rfl⟩

/-- Witness for C2 at the concrete repository list reposAB with the
healthy source apiGood. -/
theorem scan_partial_failure_amended_witness :
    (∀ r ∈ reposAB, r.name ≠ "" → apiGood r.name ≠ TagFetch.errOther) ∧
    (∃ res, scan_organization_for_tag reposAB apiGood noCommitInfo "1.0.0" true =
      Except.ok res) :=
  ⟨by decide,
   (scan_partial_failure_amended reposAB apiGood noCommitInfo "1.0.0" "1.0" true 50
     (by decide)).1⟩

/-- C4: for both scan modes, the repositories-with-match count of a
successful scan equals the number of distinct repository names among its
matches, under the precondition that repository names are unique within
the scan (needed for the exact scan, whose count is the plain number of
matches). -/
theorem repositories_with_match_distinct
    (repos : List RepoEntry) (api : String → TagFetch)
    (cinfo : String → String → Option CommitInfo) (tag_version : String)
    (include_patterns : Bool) (version_pattern : String) (max_results : Int)
    (res res' : ScanResult) (hnd : (repos.map (fun r => r.name)).Nodup) :
    (scan_organization_for_tag repos api cinfo tag_version include_patterns =
        Except.ok res →
      res.repositories_with_tag =
        (res.tags_found.map (fun t => t.repository_name)).toFinset.card) ∧
    (scan_organization_for_patterns repos api cinfo version_pattern max_results =
        Except.ok res' →
      res'.repositories_with_tag =
        (res'.tags_found.map (fun t => t.repository_name)).toFinset.card) := by
  constructor
  · intro h
    unfold scan_organization_for_tag at h
    cases hs : scanTagRepos api cinfo (tagPatterns tag_version include_patterns) repos with
    | error e => simp [hs] at h
    | ok found =>
      simp only [hs, Except.ok.injEq] at h
      subst h
      have hsub := scanTagRepos_names_sublist api cinfo
        (tagPatterns tag_version include_patterns) repos found hs
      have hfnd : (found.map (fun t => t.repository_name)).Nodup := hnd.sublist hsub
      show found.length = (found.map (fun t => t.repository_name)).toFinset.card
      rw [List.toFinset_card_of_nodup hfnd, List.length_map]
  · intro h
    unfold scan_organization_for_patterns at h
    cases hs : scanPatternRepos api cinfo (tag_matches_version_pattern version_pattern)
        max_results repos [] with
    | error e => simp [hs] at h
    | ok found =>
      simp only [hs, Except.ok.injEq] at h
      subst h
      show ((found.map (fun t => t.repository_name)).dedup).length =
        (found.map (fun t => t.repository_name)).toFinset.card
      rw [List.card_toFinset]

/-- Witness for C4 at the concrete scans over reposAB: the exact scan
yields one match, the pattern scan yields two matches from one
repository, and both counts equal the distinct-name cardinality. -/
theorem repositories_with_match_distinct_witness :
    (reposAB.map (fun r => r.name)).Nodup ∧
    scan_organization_for_tag reposAB apiGood noCommitInfo "1.0.0" true =
      Except.ok exactRes0 ∧
    scan_organization_for_patterns reposAB apiGood noCommitInfo "1.0" 50 =
      Except.ok patRes0 ∧
    exactRes0.repositories_with_tag =
      (exactRes0.tags_found.map (fun t => t.repository_name)).toFinset.card ∧
    patRes0.repositories_with_tag =
      (patRes0.tags_found.map (fun t => t.repository_name)).toFinset.card := by
  refine ⟨by decide, rfl, rfl, ?_, ?_⟩
  · exact (repositories_with_match_distinct reposAB apiGood noCommitInfo "1.0.0" true
      "1.0" 50 exactRes0 patRes0 (by decide)).1 rfl
  · exact (repositories_with_match_distinct reposAB apiGood noCommitInfo "1.0.0" true
      "1.0" 50 exactRes0 patRes0 (by decide)).2 rfl

/-- C5 counterexample: the dollar anchor of the Python re module also
matches just before a single trailing newline, so the tag 0.75 followed
by a newline is accepted by the compiled predicate for pattern 0.75,
although it neither equals 0.75 or v0.75 nor starts with 0.75-dot or
v0.75-dot. -/
theorem pattern_predicate_newline_cex :
    tag_matches_version_pattern "0.75" "0.75\n" = true ∧
    ("0.75\n" : String) ≠ "0.75" ∧ ("0.75\n" : String) ≠ "v" ++ "0.75" ∧
    strIsPrefixOf ("0.75" ++ ".") "0.75\n" = false ∧
    strIsPrefixOf ("v" ++ "0.75" ++ ".") "0.75\n" = false := by
  refine ⟨?_, ?_, ?_, ?_, ?_⟩ <;> decide

/-- C5 as amended: for every nonempty pattern, the compiled predicate
accepts a tag iff the tag equals the pattern or its v-prefixed form,
starts with the pattern (or its v-prefixed form) followed by a dot, or
equals the pattern (or its v-prefixed form) followed by one trailing
newline, the last case being an artifact of the dollar anchor; the
pattern is matched as an escaped literal throughout. -/
theorem pattern_predicate_amended (p t : String) (_hp : p ≠ "") :
    tag_matches_version_pattern p t = true ↔
      (t = p ∨ t = "v" ++ p ∨ strIsPrefixOf (p ++ ".") t = true ∨
       strIsPrefixOf ("v" ++ p ++ ".") t = true ∨ t = p ++ "\n" ∨ t = "v" ++ p ++ "\n") := by
  rw [tag_matches_iff]
  tauto

/-- Witness for C5 at pattern 0.75 and tag 0.75.5. -/
theorem pattern_predicate_amended_witness :
    ("0.75" : String) ≠ "" ∧
    (tag_matches_version_pattern "0.75" "0.75.5" = true ↔
      ("0.75.5" = "0.75" ∨ "0.75.5" = "v" ++ "0.75" ∨
       strIsPrefixOf ("0.75" ++ ".") "0.75.5" = true ∨
       strIsPrefixOf ("v" ++ "0.75" ++ ".") "0.75.5" = true ∨
       "0.75.5" = "0.75" ++ "\n" ∨ "0.75.5" = "v" ++ "0.75" ++ "\n")) :=
  ⟨by decide, pattern_predicate_amended "0.75" "0.75.5" (by decide)⟩

/-- C6: for a nonempty version without a leading v and v-prefix
inclusion enabled, the candidate list is the version followed by its
v-prefixed form; per repository the first candidate present in the tag
list wins (the candidate loop breaks on the first hit), and a successful
scan maps each repository to at most one match, its name list being a
sublist of the repository-name list. -/
theorem exact_scan_first_candidate_wins (tag_version : String)
    (_h1 : tag_version ≠ "") (h2 : strIsPrefixOf "v" tag_version = false) :
    tagPatterns tag_version true = [tag_version, "v" ++ tag_version] ∧
    (∀ tags : List String, repoExactMatch (tagPatterns tag_version true) tags =
      (if tag_version ∈ tags then some tag_version
       else if ("v" ++ tag_version) ∈ tags then some ("v" ++ tag_version)
       else none)) ∧
    (∀ (repos : List RepoEntry) (api : String → TagFetch)
       (cinfo : String → String → Option CommitInfo) (include_patterns : Bool)
       (l : List TagInfo),
      scanTagRepos api cinfo (tagPatterns tag_version include_patterns) repos =
        Except.ok l →
      List.Sublist (l.map (fun t => t.repository_name)) (repos.map (fun r => r.name))) := by
  have hpat : tagPatterns tag_version true = [tag_version, "v" ++ tag_version] := by
    unfold tagPatterns
    rw [h2]
    rfl
  refine ⟨hpat, ?_, ?_⟩
  · intro tags
    rw [hpat]
    unfold repoExactMatch
    by_cases hm1 : tag_version ∈ tags
    · simp [List.find?, hm1]
    · by_cases hm2 : ("v" ++ tag_version) ∈ tags
      · simp [List.find?, hm1, hm2]
      · simp [List.find?, hm1, hm2]
  · intro repos api cinfo include_patterns l h
    exact scanTagRepos_names_sublist api cinfo _ repos l h

/-- Witness for C6 at the version 1.0.0. -/
theorem exact_scan_first_candidate_wins_witness :
    ("1.0.0" : String) ≠ "" ∧ strIsPrefixOf "v" "1.0.0" = false ∧
    tagPatterns "1.0.0" true = ["1.0.0", "v" ++ "1.0.0"] :=
  ⟨by decide, by decide, (exact_scan_first_candidate_wins "1.0.0" (by decide) (by decide)).1⟩

/-- C9 counterexample: with the empty pattern the resolver does not fail;
the scan over the concrete organization runs to completion and returns a
successful empty result instead of surfacing an invalid-pattern error. -/
theorem empty_pattern_scan_succeeds_cex :
    scan_organization_for_patterns reposAB apiGood noCommitInfo "" 50 =
      Except.ok emptyPatRes0 := rfl

/-- C9 as amended: the code performs no empty-pattern validation. With
the empty pattern the predicate is compiled and the scan proceeds
normally (succeeding whenever no repository hits a non-404 tag-listing
failure); the compiled predicate then accepts exactly the tags equal to
the empty string or v (optionally with one trailing newline) or starting
with a dot or v-dot. -/
theorem empty_pattern_no_validation
    (repos : List RepoEntry) (api : String → TagFetch)
    (cinfo : String → String → Option CommitInfo) (max_results : Int)
    (h : ∀ r ∈ repos, r.name ≠ "" → api r.name ≠ TagFetch.errOther) :
    (∃ res, scan_organization_for_patterns repos api cinfo "" max_results =
      Except.ok res) ∧
    (∀ t, tag_matches_version_pattern "" t = true ↔
      (t = "" ∨ t = "v" ∨ strIsPrefixOf "." t = true ∨ strIsPrefixOf "v." t = true ∨
       t = "\n" ∨ t = "v\n")) := by
  constructor
  · obtain ⟨l, hl⟩ := scanPatternRepos_ok api cinfo (tag_matches_version_pattern "")
      max_results repos [] h
    refine ⟨{ total_repositories_scanned := repos.length,
              repositories_with_tag := ((l.map (fun t => t.repository_name)).dedup).length,
              tags_found := l }, ?_⟩
    unfold scan_organization_for_patterns
    rw [hl]
  · intro t
    rw [tag_matches_iff]
    have e1 : ("" : String) ++ "." = "." := rfl
    have e2 : ("v" : String) ++ "" = "v" := rfl
    have e3 : ("" : String) ++ "\n" = "\n" := rfl
    have e4 : ("v" : String) ++ "." = "v." := rfl
    have e5 : ("v" : String) ++ "\n" = "v\n" := rfl
    rw [e1, e2, e4, e3, e5]
    tauto

/-- Witness for C9 at the concrete repository list reposAB. -/
theorem empty_pattern_no_validation_witness :
    (∀ r ∈ reposAB, r.name ≠ "" → apiGood r.name ≠ TagFetch.errOther) ∧
    (∃ res, scan_organization_for_patterns reposAB apiGood noCommitInfo "" 50 =
      Except.ok res) :=
  ⟨by decide, (empty_pattern_no_validation reposAB apiGood noCommitInfo 50 (by decide)).1⟩
